import Mathlib

/-!
Shallow embedding of the core of the jonvaldes/neovide repository:
the process-bridge dispatch loop (src/bridge/mod.rs), the redraw
scheduler (src/redraw_scheduler.rs), the settings store
(src/settings.rs) and the cursor animation engine
(src/renderer/cursor_renderer.rs).

Timestamps (std::time::Instant) are modelled as natural numbers,
millisecond durations as naturals, and the f32 geometry of the cursor
renderer over the real numbers.  Rust panics are modelled as Option
results (none = panic).
-/

/-! ## Bridge dispatch (src/bridge/mod.rs) -/

/-- Modelled from the spec: UiCommand is a tagged variant over user
intents (resize, input events, and so on) carrying a predicate that
tells whether it is a resize; its defining file
src/bridge/ui_commands.rs is not among the sources, only its use in
start_process is.  The payloads are opaque naturals. -/
inductive UiCommand where
  | Resize (width height : Nat)
  | Other (payload : Nat)
deriving DecidableEq, Repr

/-- Modelled from the spec: the is-this-a-resize predicate of UiCommand. -/
def UiCommand.is_resize : UiCommand → Bool
  | .Resize _ _ => true
  | .Other _ => false

/-- The per-batch coalescing of the dispatch loop in start_process
(src/bridge/mod.rs lines 101 to 115): the drained batch is partitioned
into resize commands and the rest, only the last resize survives, and
it is emitted before the other commands.  The returned list is the
sequence of commands in the order tasks are spawned for them. -/
def dispatchBatch (commands : List UiCommand) : List UiCommand :=
  let part := commands.partition (fun c => c.is_resize)
  part.1.getLast?.toList ++ part.2

/-! ## Settings (src/settings.rs) -/

/-- Alias so that the builtin boolean type stays nameable next to the
Setting.Bool constructor. -/
abbrev BoolValue := Bool

/-- The Setting enum of src/settings.rs: a boolean or a 16-bit
unsigned value.  The u16 payload is carried as a natural below 2^16. -/
inductive Setting where
  | Bool (value : Bool)
  | U16 (value : Nat)
deriving DecidableEq, Repr

/-- Setting::read_bool: returns the boolean payload, panics (none) on
a U16 setting. -/
def Setting.read_bool : Setting → Option BoolValue
  | .Bool value => some value
  | .U16 _ => none

/-- Setting::read_u16: returns the u16 payload, panics (none) on a
Bool setting. -/
def Setting.read_u16 : Setting → Option Nat
  | .U16 value => some value
  | .Bool _ => none

/-! ## Redraw scheduler (src/redraw_scheduler.rs) -/

/-- The state of RedrawScheduler: the AtomicU16 frame credit and the
single optional deadline.  Instants are naturals. -/
structure RedrawScheduler where
  frames_queued : Nat
  scheduled_frame : Option Nat
deriving DecidableEq, Repr

/-- RedrawScheduler::new: one frame of credit, no deadline. -/
def RedrawScheduler.new : RedrawScheduler :=
  { frames_queued := 1, scheduled_frame := none }

/-- RedrawScheduler::schedule: keep the earlier of the pending
deadline and the new one; adopt the new one when none is pending. -/
def RedrawScheduler.schedule (s : RedrawScheduler) (new_scheduled : Nat) :
    RedrawScheduler :=
  match s.scheduled_frame with
  | some previous_scheduled =>
      if new_scheduled < previous_scheduled then
        { s with scheduled_frame := some new_scheduled }
      else s
  | none => { s with scheduled_frame := some new_scheduled }

/-- RedrawScheduler::queue_next_frame: store the value of the
extra_buffer_frames setting (a u16, passed here as an argument) into
the frame credit. -/
def RedrawScheduler.queue_next_frame (s : RedrawScheduler)
    (buffer_frames : Nat) : RedrawScheduler :=
  { s with frames_queued := buffer_frames }

/-- RedrawScheduler::should_draw at the current instant: positive
credit is consumed first (the deadline untouched); otherwise a pending
deadline that lies strictly in the past is consumed; otherwise false. -/
def RedrawScheduler.should_draw (s : RedrawScheduler) (now : Nat) :
    Bool × RedrawScheduler :=
  if s.frames_queued > 0 then
    (true, { s with frames_queued := s.frames_queued - 1 })
  else
    match s.scheduled_frame with
    | some scheduled_frame =>
        if scheduled_frame < now then
          (true, { s with scheduled_frame := none })
        else (false, s)
    | none => (false, s)

/-- The scheduler state after k successive should_draw calls, all at
the same instant. -/
def RedrawScheduler.should_draw_iter (s : RedrawScheduler) (now : Nat) :
    Nat → RedrawScheduler
  | 0 => s
  | k + 1 => ((s.should_draw_iter now k).should_draw now).2

/-- Folding a whole list of schedule requests into the scheduler. -/
def RedrawScheduler.scheduleAll (s : RedrawScheduler) (ts : List Nat) :
    RedrawScheduler :=
  ts.foldl RedrawScheduler.schedule s

/-! ## Blink state machine (src/renderer/cursor_renderer.rs) -/

/-- The BlinkState enum. -/
inductive BlinkState where
  | Waiting
  | On
  | Off
deriving DecidableEq, Repr

/-- BlinkState::next_state. -/
def BlinkState.next_state : BlinkState → BlinkState
  | .Waiting => .On
  | .On => .Off
  | .Off => .On

/-- The CursorShape enum of the editor module (its file is not among
the sources; the three variants are used by name in
cursor_renderer.rs). -/
inductive CursorShape where
  | Block
  | Vertical
  | Horizontal
deriving DecidableEq, Repr

/-- The per-frame Cursor snapshot as the cursor renderer reads it:
grid position, shape, optional cell coverage (an f32 in the source,
modelled as a rational so that value equality stays decidable),
optional blink delays in milliseconds, and the enabled flag.  Change
detection in update_status compares whole cursors by value. -/
structure Cursor where
  position : Nat × Nat
  shape : CursorShape
  cell_percentage : Option ℚ
  blinkwait : Option Nat
  blinkon : Option Nat
  blinkoff : Option Nat
  enabled : Bool
deriving DecidableEq, Repr

/-- The BlinkStatus record: current phase, instant of the last phase
transition, and the last seen cursor. -/
structure BlinkStatus where
  state : BlinkState
  last_transition : Nat
  previous_cursor : Option Cursor
deriving DecidableEq, Repr

/-- BlinkStatus::new at construction instant t0. -/
def BlinkStatus.new (t0 : Nat) : BlinkStatus :=
  { state := .Waiting, last_transition := t0, previous_cursor := none }

/-- BlinkStatus::update_status at instant now.  Returns the visibility
flag, the updated status, and the deadline passed to
REDRAW_SCHEDULER.schedule when that call happens (none otherwise).
Instant::elapsed is now minus last_transition. -/
def BlinkStatus.update_status (s : BlinkStatus) (new_cursor : Cursor)
    (now : Nat) : Bool × BlinkStatus × Option Nat :=
  let s :=
    if s.previous_cursor.isNone ∨ some new_cursor ≠ s.previous_cursor then
      { state :=
          match new_cursor.blinkwait with
          | none => BlinkState.On
          | some 0 => BlinkState.On
          | some _ => BlinkState.Waiting,
        last_transition := now,
        previous_cursor := some new_cursor }
    else s
  if new_cursor.blinkwait = some 0 ∨ new_cursor.blinkoff = some 0 ∨
      new_cursor.blinkon = some 0 then
    (true, s, none)
  else
    let blink_delay :=
      match s.state with
      | .Waiting => new_cursor.blinkwait
      | .Off => new_cursor.blinkoff
      | .On => new_cursor.blinkon
    match blink_delay with
    | some delay =>
        let s :=
          if delay > 0 ∧ delay ≤ now - s.last_transition then
            { s with state := s.state.next_state, last_transition := now }
          else s
        (s.state = BlinkState.On, s, some (s.last_transition + delay))
    | none => (s.state = BlinkState.On, s, none)

/-! ## Command-line repositioning delay (CursorRenderer::draw) -/

/-- COMMAND_LINE_DELAY_FRAMES constant. -/
def COMMAND_LINE_DELAY_FRAMES : Nat := 5

/-- The drawn-position update block of CursorRenderer::draw
(src/renderer/cursor_renderer.rs lines 178 to 194): given the grid
height, the previously drawn position, the current delay counter and
the target cursor position, it yields the new drawn position and the
new delay counter. -/
def update_position (grid_height : Nat) (previous_position : Nat × Nat)
    (command_line_delay : Nat) (cursor_position : Nat × Nat) :
    (Nat × Nat) × Nat :=
  let grid_y := cursor_position.2
  let previous_y := previous_position.2
  if grid_y = grid_height - 1 ∧ previous_y ≠ grid_y then
    let d := command_line_delay + 1
    if d < COMMAND_LINE_DELAY_FRAMES then (previous_position, d)
    else (cursor_position, 0)
  else (cursor_position, 0)

/-- k frames of the drawn-position update with a fixed target cursor
position. -/
def update_position_iter (grid_height : Nat) (start : (Nat × Nat) × Nat)
    (cursor_position : Nat × Nat) : Nat → (Nat × Nat) × Nat
  | 0 => start
  | k + 1 =>
      let q := update_position_iter grid_height start cursor_position k
      update_position grid_height q.1 q.2 cursor_position

/-! ## Cursor geometry (corners and interpolation) -/

/-- AVERAGE_MOTION_PERCENTAGE constant (f32 0.7). -/
noncomputable def AVERAGE_MOTION_PERCENTAGE : ℝ := 0.7

/-- MOTION_PERCENTAGE_SPREAD constant (f32 0.5). -/
noncomputable def MOTION_PERCENTAGE_SPREAD : ℝ := 0.5

/-- DEFAULT_CELL_PERCENTAGE constant (f32 1/8). -/
noncomputable def DEFAULT_CELL_PERCENTAGE : ℝ := 1 / 8

/-- STANDARD_CORNERS: the four unit-square corner offsets from the
cell center. -/
noncomputable def STANDARD_CORNERS : List (ℝ × ℝ) :=
  [(-0.5, -0.5), (0.5, -0.5), (0.5, 0.5), (-0.5, 0.5)]

/-- A Corner: the currently animated position and the shape-relative
offset, both f32 points modelled over the reals. -/
structure Corner where
  current_position : ℝ × ℝ
  relative_position : ℝ × ℝ

/-- Corner::new. -/
noncomputable def Corner.new (relative_position : ℝ × ℝ) : Corner :=
  { current_position := (0, 0), relative_position := relative_position }

/-- The offset a standard corner is mapped to for a given shape and
cell percentage, from the match inside CursorRenderer::set_cursor_shape:
Block keeps the standard corner, Vertical is
((x + 0.5) * percentage - 0.5, y), Horizontal is
(x, -((-y + 0.5) * percentage - 0.5)). -/
noncomputable def shape_relative (cursor_shape : CursorShape) (cell_percentage : ℝ)
    (sc : ℝ × ℝ) : ℝ × ℝ :=
  match cursor_shape with
  | .Block => sc
  | .Vertical => ((sc.1 + 0.5) * cell_percentage - 0.5, sc.2)
  | .Horizontal => (sc.1, -((-sc.2 + 0.5) * cell_percentage - 0.5))

/-- CursorRenderer::set_cursor_shape: zip the existing corners with
STANDARD_CORNERS and overwrite each relative offset, keeping the
animated positions. -/
noncomputable def set_cursor_shape (corners : List Corner) (cursor_shape : CursorShape)
    (cell_percentage : ℝ) : List Corner :=
  (corners.zip STANDARD_CORNERS).map fun cs =>
    { cs.1 with relative_position := shape_relative cursor_shape cell_percentage cs.2 }

/-- Length of an f32 Point, over the reals. -/
noncomputable def vlength (v : ℝ × ℝ) : ℝ :=
  Real.sqrt (v.1 ^ 2 + v.2 ^ 2)

/-- Dot product of two points. -/
noncomputable def vdot (a b : ℝ × ℝ) : ℝ := a.1 * b.1 + a.2 * b.2

/-- The offset scaled by the font dimensions, componentwise, as in the
first line of Corner::update. -/
noncomputable def relative_scaled (c : Corner) (font_dimensions : ℝ × ℝ) : ℝ × ℝ :=
  (c.relative_position.1 * font_dimensions.1,
   c.relative_position.2 * font_dimensions.2)

/-- The remaining delta of a corner: its absolute destination
(destination plus scaled offset) minus its current position. -/
noncomputable def corner_delta (c : Corner) (font_dimensions destination : ℝ × ℝ) :
    ℝ × ℝ :=
  let rsp := relative_scaled c font_dimensions
  ((destination.1 + rsp.1) - c.current_position.1,
   (destination.2 + rsp.2) - c.current_position.2)

open Classical in
/-- Corner::update: when the delta is nonzero, project the scaled
offset onto the delta, normalise by the delta and font lengths, map
the scalar into a motion percentage and move the position by delta
times that percentage.  Returns the updated corner and the
still-animating flag (pre-move delta length above 0.001). -/
noncomputable def Corner.update (c : Corner) (font_dimensions destination : ℝ × ℝ) :
    Corner × Bool :=
  let rsp := relative_scaled c font_dimensions
  let delta := corner_delta c font_dimensions destination
  let moved :=
    if vlength delta > 0 then
      let motion_scale :=
        vdot delta rsp / vlength delta / vlength font_dimensions
      let motion_percentage :=
        motion_scale * MOTION_PERCENTAGE_SPREAD + AVERAGE_MOTION_PERCENTAGE
      { c with current_position :=
          (c.current_position.1 + delta.1 * motion_percentage,
           c.current_position.2 + delta.2 * motion_percentage) }
    else c
  (moved, decide (vlength delta > 0.001))

/-- The corner after k calls of Corner::update with fixed font
dimensions and destination. -/
noncomputable def corner_iter (c : Corner) (font_dimensions destination : ℝ × ℝ) :
    Nat → Corner
  | 0 => c
  | k + 1 =>
      ((corner_iter c font_dimensions destination k).update
        font_dimensions destination).1

/-- Modelled from the spec, for comparison only: the vertical-bar
transform as the spec words it, x offsets compressed toward the RIGHT
edge of the cell by the coverage percentage (the right edge x = 0.5 is
the fixed point of the compression), y unchanged. -/
noncomputable def spec_vertical_right_compressed (cell_percentage : ℝ) (sc : ℝ × ℝ) : ℝ × ℝ :=
  (0.5 - (0.5 - sc.1) * cell_percentage, sc.2)

/-! ## Helper lemmas -/

/-- Consuming credit: k successive should_draw calls with enough credit
leave the deadline untouched and subtract k from the credit. -/
theorem should_draw_iter_credit (s : RedrawScheduler) (now : Nat) :
    ∀ j, j ≤ s.frames_queued →
      s.should_draw_iter now j =
        { frames_queued := s.frames_queued - j,
          scheduled_frame := s.scheduled_frame } := by
  intro j
  induction j with
  | zero => intro _; simp [RedrawScheduler.should_draw_iter]
  | succ k ih =>
      intro hk
      have hk2 : k ≤ s.frames_queued := Nat.le_of_succ_le hk
      have hpos : 0 < s.frames_queued - k := by omega
      simp [RedrawScheduler.should_draw_iter, ih hk2,
        RedrawScheduler.should_draw, hpos]
      omega

/-- schedule never touches the frame credit. -/
theorem schedule_frames_queued (s : RedrawScheduler) (t : Nat) :
    (s.schedule t).frames_queued = s.frames_queued := by
  unfold RedrawScheduler.schedule
  rcases s with ⟨fq, sf⟩
  cases sf <;> simp <;> split <;> rfl

/-- schedule on a pending deadline keeps the minimum. -/
theorem schedule_min (s : RedrawScheduler) (t m : Nat)
    (h : s.scheduled_frame = some m) :
    (s.schedule t).scheduled_frame = some (min m t) := by
  rcases s with ⟨fq, sf⟩
  obtain rfl : sf = some m := h
  unfold RedrawScheduler.schedule
  by_cases hlt : t < m <;> simp [hlt] <;> omega

/-- Folding a list of requests over a pending deadline keeps the
running minimum. -/
theorem scheduleAll_min (ts : List Nat) :
    ∀ (s : RedrawScheduler) (m : Nat), s.scheduled_frame = some m →
      (s.scheduleAll ts).scheduled_frame = some (ts.foldl min m) := by
  induction ts with
  | nil => intro s m h; simpa [RedrawScheduler.scheduleAll] using h
  | cons t ts ih =>
      intro s m h
      have hstep := schedule_min s t m h
      simpa [RedrawScheduler.scheduleAll] using ih (s.schedule t) (min m t) hstep

/-! ## Claim theorems -/

/-- Claim C1: for every drained batch holding at least one resize
command, the dispatch loop emits exactly the last resize in arrival
order followed by all non-resize commands of the batch; every other
resize is discarded and the surviving resize comes first. -/
theorem c1_dispatch_coalesces_resizes (batch : List UiCommand)
    (h : batch.filter (fun c => c.is_resize) ≠ []) :
    ∃ r, (batch.filter (fun c => c.is_resize)).getLast? = some r ∧
      dispatchBatch batch = r :: batch.filter (fun c => !c.is_resize) := by
  cases hl : (batch.filter (fun c => c.is_resize)).getLast? with
  | none => exact absurd (List.getLast?_eq_none_iff.mp hl) h
  | some r =>
      refine ⟨r, rfl, ?_⟩
      unfold dispatchBatch
      rw [List.partition_eq_filter_filter]
      simp only [hl, Option.toList_some, List.singleton_append, List.cons.injEq,
        true_and]
      rfl

/-- Witness for C1 on a concrete five-command batch with two resizes. -/
theorem c1_dispatch_coalesces_resizes_witness :
    ([UiCommand.Other 1, UiCommand.Resize 2 3, UiCommand.Other 4,
        UiCommand.Resize 5 6, UiCommand.Other 7].filter
        (fun c => c.is_resize) ≠ []) ∧
    ∃ r, ([UiCommand.Other 1, UiCommand.Resize 2 3, UiCommand.Other 4,
        UiCommand.Resize 5 6, UiCommand.Other 7].filter
        (fun c => c.is_resize)).getLast? = some r ∧
      dispatchBatch [UiCommand.Other 1, UiCommand.Resize 2 3,
        UiCommand.Other 4, UiCommand.Resize 5 6, UiCommand.Other 7] =
        r :: [UiCommand.Other 1, UiCommand.Resize 2 3, UiCommand.Other 4,
          UiCommand.Resize 5 6, UiCommand.Other 7].filter
          (fun c => !c.is_resize) :=
  ⟨by decide, c1_dispatch_coalesces_resizes _ (by decide)⟩

/-- Claim C2: after queue_next_frame stores the u16 credit n, each of
the first n should_draw calls returns true and decrements the credit
by one, and the call after those returns false when no pending
deadline has elapsed. -/
theorem c2_queue_next_frame_grants_credit (s : RedrawScheduler)
    (n now : Nat) (hn : n < 2 ^ 16)
    (hno : ∀ t, s.scheduled_frame = some t → ¬ t < now) :
    (∀ j, j < n →
      (((s.queue_next_frame n).should_draw_iter now j).should_draw now).1 =
        true ∧
      ((s.queue_next_frame n).should_draw_iter now (j + 1)).frames_queued =
        n - (j + 1)) ∧
    (((s.queue_next_frame n).should_draw_iter now n).should_draw now).1 =
      false := by
  have hfq : (s.queue_next_frame n).frames_queued = n := rfl
  have hsch : (s.queue_next_frame n).scheduled_frame = s.scheduled_frame := rfl
  constructor
  · intro j hj
    have h1 := should_draw_iter_credit (s.queue_next_frame n) now j
      (by rw [hfq]; omega)
    have h2 := should_draw_iter_credit (s.queue_next_frame n) now (j + 1)
      (by rw [hfq]; omega)
    rw [hfq, hsch] at h1 h2
    constructor
    · rw [h1]
      simp [RedrawScheduler.should_draw, show 0 < n - j by omega]
    · rw [h2]
  · have h3 := should_draw_iter_credit (s.queue_next_frame n) now n
      (by rw [hfq])
    rw [hfq, hsch] at h3
    rw [h3]
    cases hs : s.scheduled_frame with
    | none => simp [RedrawScheduler.should_draw]
    | some t => simp [RedrawScheduler.should_draw, hno t hs]

/-- Witness for C2 with one pending unelapsed deadline and credit 2. -/
theorem c2_queue_next_frame_grants_credit_witness :
    ((2 : Nat) < 2 ^ 16) ∧
    ((∀ t, (RedrawScheduler.mk 0 (some 10)).scheduled_frame = some t →
        ¬ t < 5) ∧
    ((∀ j, j < 2 →
        ((((RedrawScheduler.mk 0 (some 10)).queue_next_frame 2).should_draw_iter
            5 j).should_draw 5).1 = true ∧
        (((RedrawScheduler.mk 0 (some 10)).queue_next_frame 2).should_draw_iter
            5 (j + 1)).frames_queued = 2 - (j + 1)) ∧
      ((((RedrawScheduler.mk 0 (some 10)).queue_next_frame 2).should_draw_iter
          5 2).should_draw 5).1 = false)) :=
  ⟨by decide, by intro t ht; cases ht; decide,
    c2_queue_next_frame_grants_credit (RedrawScheduler.mk 0 (some 10)) 2 5
      (by decide) (by intro t ht; cases ht; decide)⟩

/-- Claim C3: schedule twice keeps the earlier deadline; in general
the stored deadline after a run of requests on an empty slot is their
minimum; with zero credit should_draw stays false up to and including
the deadline instant and fires exactly once after it, clearing the
deadline. -/
theorem c3_deadline_min_merge (s : RedrawScheduler) (t1 t2 : Nat)
    (h0 : s.scheduled_frame = none) :
    (((s.schedule t1).schedule t2).scheduled_frame = some (min t1 t2)) ∧
    (∀ (t : Nat) (ts : List Nat),
      (s.scheduleAll (t :: ts)).scheduled_frame = some (ts.foldl min t)) ∧
    (s.frames_queued = 0 →
      ∀ now, now ≤ min t1 t2 →
        (((s.schedule t1).schedule t2).should_draw now).1 = false) ∧
    (s.frames_queued = 0 →
      ∀ now, min t1 t2 < now →
        (((s.schedule t1).schedule t2).should_draw now).1 = true ∧
        (((((s.schedule t1).schedule t2).should_draw now).2).should_draw
          now).1 = false) := by
  have hs1 : (s.schedule t1).scheduled_frame = some t1 := by
    unfold RedrawScheduler.schedule
    rw [h0]
  have hs2 : ((s.schedule t1).schedule t2).scheduled_frame =
      some (min t1 t2) := schedule_min _ t2 t1 hs1
  have hfq : ((s.schedule t1).schedule t2).frames_queued = s.frames_queued := by
    rw [schedule_frames_queued, schedule_frames_queued]
  refine ⟨hs2, ?_, ?_, ?_⟩
  · intro t ts
    have h1 : (s.schedule t).scheduled_frame = some t := by
      unfold RedrawScheduler.schedule
      rw [h0]
    simpa [RedrawScheduler.scheduleAll] using scheduleAll_min ts (s.schedule t) t h1
  · intro hz now hnow
    unfold RedrawScheduler.should_draw
    rw [hfq, hz, hs2]
    simp [show ¬ min t1 t2 < now by omega]
  · intro hz now hnow
    constructor
    · unfold RedrawScheduler.should_draw
      rw [hfq, hz, hs2]
      simp [hnow]
    · have hfire : ((s.schedule t1).schedule t2).should_draw now =
          (true, { frames_queued := s.frames_queued, scheduled_frame := none }) := by
        unfold RedrawScheduler.should_draw
        rw [hfq, hz, hs2]
        simp [hnow, hz]
      rw [hfire]
      simp [RedrawScheduler.should_draw, hz]

/-- Witness for C3 at an empty scheduler slot with requests 7 and 3. -/
theorem c3_deadline_min_merge_witness :
    ((RedrawScheduler.mk 0 none).scheduled_frame = none) ∧
    ((((RedrawScheduler.mk 0 none).schedule 7).schedule 3).scheduled_frame =
        some (min 7 3) ∧
     (∀ (t : Nat) (ts : List Nat),
       ((RedrawScheduler.mk 0 none).scheduleAll (t :: ts)).scheduled_frame =
         some (ts.foldl min t)) ∧
     ((RedrawScheduler.mk 0 none).frames_queued = 0 →
       ∀ now, now ≤ min 7 3 →
         ((((RedrawScheduler.mk 0 none).schedule 7).schedule 3).should_draw
           now).1 = false) ∧
     ((RedrawScheduler.mk 0 none).frames_queued = 0 →
       ∀ now, min 7 3 < now →
         ((((RedrawScheduler.mk 0 none).schedule 7).schedule 3).should_draw
           now).1 = true ∧
         ((((((RedrawScheduler.mk 0 none).schedule 7).schedule 3).should_draw
           now).2).should_draw now).1 = false)) :=
  ⟨rfl, c3_deadline_min_merge (RedrawScheduler.mk 0 none) 7 3 rfl⟩

/-- Claim C9: reading a setting with the matching type returns the
stored value unchanged, and reading it as the wrong type panics. -/
theorem c9_setting_reads (b : Bool) (n : Nat) :
    Setting.read_bool (Setting.Bool b) = some b ∧
    Setting.read_u16 (Setting.U16 n) = some n ∧
    Setting.read_bool (Setting.U16 n) = none ∧
    Setting.read_u16 (Setting.Bool b) = none :=
  ⟨rfl, rfl, rfl, rfl⟩

/-- Claim C10: a fresh RedrawScheduler holds one frame of credit, so
its first should_draw call fires even with no schedule or
queue_next_frame call, an immediate second call stays quiet with no
pending deadline, and consuming credit never touches the deadline. -/
theorem c10_initial_credit (now now2 : Nat) :
    RedrawScheduler.new.frames_queued = 1 ∧
    (RedrawScheduler.new.should_draw now).1 = true ∧
    (((RedrawScheduler.new.should_draw now).2).should_draw now2).1 = false ∧
    (∀ (s : RedrawScheduler) (t : Nat), 0 < s.frames_queued →
      ((s.should_draw t).2).scheduled_frame = s.scheduled_frame) := by
  refine ⟨rfl, rfl, rfl, ?_⟩
  intro s t hpos
  simp [RedrawScheduler.should_draw, hpos]

/-- Witness for C10 at concrete instants, including a credit-consuming
call on a scheduler with a pending deadline. -/
theorem c10_initial_credit_witness :
    (RedrawScheduler.new.frames_queued = 1 ∧
      (RedrawScheduler.new.should_draw 0).1 = true ∧
      (((RedrawScheduler.new.should_draw 0).2).should_draw 1).1 = false) ∧
    (0 < (RedrawScheduler.mk 2 (some 5)).frames_queued ∧
      (((RedrawScheduler.mk 2 (some 5)).should_draw 3).2).scheduled_frame =
        (RedrawScheduler.mk 2 (some 5)).scheduled_frame) :=
  ⟨⟨(c10_initial_credit 0 1).1, (c10_initial_credit 0 1).2.1,
      (c10_initial_credit 0 1).2.2.1⟩,
    ⟨by decide, (c10_initial_credit 0 1).2.2.2 (RedrawScheduler.mk 2 (some 5)) 3
      (by decide)⟩⟩

/-- Claim C4: when any blink delay of the incoming cursor is exactly
zero, update_status reports the cursor visible on every call,
whatever the stored phase and however much time has elapsed. -/
theorem c4_zero_delay_forces_visible (st : BlinkStatus) (c : Cursor)
    (now : Nat)
    (h : c.blinkwait = some 0 ∨ c.blinkon = some 0 ∨ c.blinkoff = some 0) :
    (st.update_status c now).1 = true := by
  have hz : c.blinkwait = some 0 ∨ c.blinkoff = some 0 ∨
      c.blinkon = some 0 := by tauto
  simp only [BlinkStatus.update_status]
  rw [if_pos hz]

/-- Witness for C4: an Off-phase status, a cursor with blinkon zero,
and a late instant. -/
theorem c4_zero_delay_forces_visible_witness :
    ((Cursor.mk (0, 0) CursorShape.Block none (some 300) (some 0) (some 200)
        true).blinkwait = some 0 ∨
      (Cursor.mk (0, 0) CursorShape.Block none (some 300) (some 0) (some 200)
        true).blinkon = some 0 ∨
      (Cursor.mk (0, 0) CursorShape.Block none (some 300) (some 0) (some 200)
        true).blinkoff = some 0) ∧
    ((BlinkStatus.mk BlinkState.Off 2
        (some (Cursor.mk (0, 0) CursorShape.Block none (some 300) (some 0)
          (some 200) true))).update_status
      (Cursor.mk (0, 0) CursorShape.Block none (some 300) (some 0) (some 200)
        true) 1000).1 = true :=
  ⟨Or.inr (Or.inl rfl),
    c4_zero_delay_forces_visible _ _ 1000 (Or.inr (Or.inl rfl))⟩

/-- Claim C5: with blink delays wait 300, on 400, off 200 the first
call with no previously seen cursor enters Waiting and reports
invisible; once the delay of the current phase has fully elapsed a
call advances Waiting to On, On to Off, Off to On, resets the
transition instant and reports visible exactly when the new phase is
On; and a changed cursor resets the phase to On when blinkwait is
absent or zero and to Waiting otherwise. -/
theorem c5_blink_transitions (pos : Nat × Nat) (shape : CursorShape)
    (cp : Option ℚ) (en : Bool) :
    (∀ (st : BlinkStatus) (now : Nat), st.previous_cursor = none →
      st.update_status
          (Cursor.mk pos shape cp (some 300) (some 400) (some 200) en) now =
        (false,
          BlinkStatus.mk BlinkState.Waiting now
            (some (Cursor.mk pos shape cp (some 300) (some 400) (some 200) en)),
          some (now + 300))) ∧
    (∀ (st : BlinkStatus) (now : Nat),
      st.previous_cursor =
        some (Cursor.mk pos shape cp (some 300) (some 400) (some 200) en) →
      (match st.state with
        | BlinkState.Waiting => 300
        | BlinkState.On => 400
        | BlinkState.Off => 200) ≤ now - st.last_transition →
      (st.update_status
          (Cursor.mk pos shape cp (some 300) (some 400) (some 200) en)
          now).1 = decide (st.state.next_state = BlinkState.On) ∧
      (st.update_status
          (Cursor.mk pos shape cp (some 300) (some 400) (some 200) en)
          now).2.1 =
        BlinkStatus.mk st.state.next_state now st.previous_cursor) ∧
    (∀ (st : BlinkStatus) (c2 : Cursor) (now : Nat),
      some c2 ≠ st.previous_cursor →
      ((st.update_status c2 now).2.1).state =
        (match c2.blinkwait with
          | none => BlinkState.On
          | some 0 => BlinkState.On
          | some _ => BlinkState.Waiting)) := by
  refine ⟨?_, ?_, ?_⟩
  · intro st now h
    simp [BlinkStatus.update_status, h, Nat.sub_self]
  · intro st now hprev hdel
    rcases st with ⟨state, lt, prevc⟩
    obtain rfl : prevc =
        some (Cursor.mk pos shape cp (some 300) (some 400) (some 200) en) :=
      hprev
    cases state <;>
      simp_all [BlinkStatus.update_status, BlinkState.next_state]
  · intro st c2 now h
    simp only [BlinkStatus.update_status]
    rw [if_pos (Or.inr h)]
    split
    · rfl
    · rename_i hz
      cases hw : c2.blinkwait with
      | none =>
          cases hon : c2.blinkon with
          | none => simp [hw, hon]
          | some d =>
              simp [hw, hon, Nat.sub_self]
              rw [if_neg (by omega)]
      | some w =>
          cases w with
          | zero => exact absurd (Or.inl hw) hz
          | succ w => simp [hw, Nat.sub_self]

/-- Witness for C5 applied to a fresh status and then to an elapsed
Waiting status. -/
theorem c5_blink_transitions_witness :
    ((BlinkStatus.new 0).previous_cursor = none ∧
      (BlinkStatus.new 0).update_status
          (Cursor.mk (1, 2) CursorShape.Block none (some 300) (some 400)
            (some 200) true) 50 =
        (false,
          BlinkStatus.mk BlinkState.Waiting 50
            (some (Cursor.mk (1, 2) CursorShape.Block none (some 300)
              (some 400) (some 200) true)),
          some (50 + 300))) ∧
    ((BlinkStatus.mk BlinkState.Waiting 50
        (some (Cursor.mk (1, 2) CursorShape.Block none (some 300) (some 400)
          (some 200) true))).update_status
        (Cursor.mk (1, 2) CursorShape.Block none (some 300) (some 400)
          (some 200) true) 350).1 =
      decide ((BlinkState.Waiting).next_state = BlinkState.On) :=
  ⟨⟨rfl, ((c5_blink_transitions (1, 2) CursorShape.Block none true).1
      (BlinkStatus.new 0) 50 rfl)⟩,
    ((c5_blink_transitions (1, 2) CursorShape.Block none true).2.1
      (BlinkStatus.mk BlinkState.Waiting 50
        (some (Cursor.mk (1, 2) CursorShape.Block none (some 300) (some 400)
          (some 200) true))) 350 rfl (by decide)).1⟩

/-- One frame of the drawn-position iteration, unfolded. -/
theorem update_position_iter_succ (grid_height : Nat)
    (start : (Nat × Nat) × Nat) (cpos : Nat × Nat) (k : Nat) :
    update_position_iter grid_height start cpos (k + 1) =
      update_position grid_height
        (update_position_iter grid_height start cpos k).1
        (update_position_iter grid_height start cpos k).2 cpos := rfl

/-- Claim C6: a move to the last grid row with a different previously
drawn row keeps the drawn position for frames one to four and accepts
the new position exactly at frame five with the counter reset, while
a move to any non-last row is accepted at once with the counter
reset. -/
theorem c6_command_line_delay (grid_height : Nat) (prev cpos : Nat × Nat)
    (hh : 1 ≤ grid_height) (hy : cpos.2 = grid_height - 1)
    (hne : prev.2 ≠ cpos.2) :
    COMMAND_LINE_DELAY_FRAMES = 5 ∧
    (∀ k, k ≤ 4 →
      update_position_iter grid_height (prev, 0) cpos k = (prev, k)) ∧
    update_position_iter grid_height (prev, 0) cpos 5 = (cpos, 0) ∧
    (∀ (p : Nat × Nat) (d : Nat) (target : Nat × Nat),
      target.2 ≠ grid_height - 1 →
      update_position grid_height p d target = (target, 0)) := by
  have hkeep : ∀ k, k ≤ 4 →
      update_position_iter grid_height (prev, 0) cpos k = (prev, k) := by
    intro k
    induction k with
    | zero => intro _; rfl
    | succ k ih =>
        intro hk
        have hk4 : k ≤ 4 := by omega
        simp only [update_position_iter, ih hk4]
        simp only [update_position]
        rw [if_pos ⟨hy, hne⟩, if_pos (by
          simp only [COMMAND_LINE_DELAY_FRAMES]; omega)]
  refine ⟨rfl, hkeep, ?_, ?_⟩
  · rw [show (5 : Nat) = 4 + 1 from rfl, update_position_iter_succ,
      hkeep 4 (by omega)]
    simp only [update_position]
    rw [if_pos ⟨hy, hne⟩, if_neg (by
      simp only [COMMAND_LINE_DELAY_FRAMES]; omega)]
  · intro p d target ht
    simp only [update_position]
    rw [if_neg (fun hc => ht hc.1)]

/-- Witness for C6 on a ten-row grid with a cursor jumping from row
three to the command line row nine. -/
theorem c6_command_line_delay_witness :
    ((1 : Nat) ≤ 10 ∧ (1, 9).2 = 10 - 1 ∧ (2, 3).2 ≠ (1, 9).2) ∧
    (COMMAND_LINE_DELAY_FRAMES = 5 ∧
      (∀ k, k ≤ 4 →
        update_position_iter 10 ((2, 3), 0) (1, 9) k = ((2, 3), k)) ∧
      update_position_iter 10 ((2, 3), 0) (1, 9) 5 = ((1, 9), 0) ∧
      (∀ (p : Nat × Nat) (d : Nat) (target : Nat × Nat),
        target.2 ≠ 10 - 1 →
        update_position 10 p d target = (target, 0))) :=
  ⟨⟨by decide, by decide, by decide⟩,
    c6_command_line_delay 10 (2, 3) (1, 9) (by decide) (by decide) (by decide)⟩

/-- Claim C7 counterexample: with coverage percentage one eighth the
code maps the standard corner (0.5, -0.5) of a vertical bar to x
offset -3/8, not the value 0.5 that a compression toward the right
edge (right edge fixed, distances to it scaled by the percentage)
would give; the vertical transform fixes the left edge instead. -/
theorem c7_vertical_not_right_compressed :
    (shape_relative CursorShape.Vertical (1 / 8) (0.5, -0.5)).1 = -(3 / 8) ∧
    shape_relative CursorShape.Vertical (1 / 8) (0.5, -0.5) ≠
      spec_vertical_right_compressed (1 / 8) (0.5, -0.5) := by
  constructor
  · simp only [shape_relative]
    norm_num
  · simp only [shape_relative, spec_vertical_right_compressed, ne_eq,
      Prod.mk.injEq, not_and]
    intro h
    norm_num at h

/-- Claim C7 amended: set_cursor_shape leaves the four unit-square
corners unchanged for the block shape; for the vertical bar the x
offsets are compressed toward the LEFT edge of the cell by the
coverage percentage (distance to the left edge scaled by it) with y
unchanged; for the horizontal bar the y offsets are compressed toward
the bottom edge (distance to the bottom edge scaled) with x
unchanged. -/
theorem c7_amended_shape_offsets (p : ℝ) (c0 c1 c2 c3 : Corner) :
    ((set_cursor_shape [c0, c1, c2, c3] CursorShape.Block p).map
        (fun c => c.relative_position) = STANDARD_CORNERS) ∧
    ((set_cursor_shape [c0, c1, c2, c3] CursorShape.Vertical p).map
        (fun c => c.relative_position) =
      [(-0.5, -0.5), (p - 0.5, -0.5), (p - 0.5, 0.5), (-0.5, 0.5)]) ∧
    ((set_cursor_shape [c0, c1, c2, c3] CursorShape.Horizontal p).map
        (fun c => c.relative_position) =
      [(-0.5, 0.5 - p), (0.5, 0.5 - p), (0.5, 0.5), (-0.5, 0.5)]) ∧
    (∀ sc : ℝ × ℝ,
      (shape_relative CursorShape.Vertical p sc).1 + 0.5 =
        p * (sc.1 + 0.5) ∧
      (shape_relative CursorShape.Vertical p sc).2 = sc.2 ∧
      0.5 - (shape_relative CursorShape.Horizontal p sc).2 =
        p * (0.5 - sc.2) ∧
      (shape_relative CursorShape.Horizontal p sc).1 = sc.1 ∧
      shape_relative CursorShape.Block p sc = sc) := by
  refine ⟨?_, ?_, ?_, ?_⟩
  · simp [set_cursor_shape, STANDARD_CORNERS, shape_relative]
  · simp [set_cursor_shape, STANDARD_CORNERS, shape_relative]
    norm_num
  · simp [set_cursor_shape, STANDARD_CORNERS, shape_relative]
    norm_num
  · intro sc
    refine ⟨by simp [shape_relative]; ring, rfl,
      by simp [shape_relative]; ring, rfl, rfl⟩

/-- Point lengths are nonnegative. -/
theorem vlength_nonneg (v : ℝ × ℝ) : 0 ≤ vlength v := Real.sqrt_nonneg _

/-- The square of a point length. -/
theorem vlength_sq (v : ℝ × ℝ) : vlength v ^ 2 = v.1 ^ 2 + v.2 ^ 2 :=
  Real.sq_sqrt (by positivity)

/-- Cauchy-Schwarz bound for the planar dot product. -/
theorem vdot_abs_le (a b : ℝ × ℝ) : |vdot a b| ≤ vlength a * vlength b := by
  have hsq : vdot a b ^ 2 ≤ (a.1 ^ 2 + a.2 ^ 2) * (b.1 ^ 2 + b.2 ^ 2) := by
    unfold vdot
    nlinarith [sq_nonneg (a.1 * b.2 - a.2 * b.1)]
  rw [← Real.sqrt_sq_eq_abs]
  calc Real.sqrt (vdot a b ^ 2)
      ≤ Real.sqrt ((a.1 ^ 2 + a.2 ^ 2) * (b.1 ^ 2 + b.2 ^ 2)) :=
        Real.sqrt_le_sqrt hsq
    _ = vlength a * vlength b := by
        unfold vlength
        rw [Real.sqrt_mul (by positivity)]

/-- Length scales by the absolute factor under componentwise scaling. -/
theorem vlength_scale (t : ℝ) (v : ℝ × ℝ) :
    vlength (t * v.1, t * v.2) = |t| * vlength v := by
  unfold vlength
  rw [show (t * v.1) ^ 2 + (t * v.2) ^ 2 = t ^ 2 * (v.1 ^ 2 + v.2 ^ 2) by ring,
    Real.sqrt_mul (sq_nonneg t), Real.sqrt_sq_eq_abs]

/-- An offset whose components are at most one half in absolute value
scales to at most half of the font diagonal. -/
theorem relative_scaled_le (c : Corner) (f : ℝ × ℝ)
    (h1 : |c.relative_position.1| ≤ 1 / 2)
    (h2 : |c.relative_position.2| ≤ 1 / 2) :
    vlength (relative_scaled c f) ≤ 1 / 2 * vlength f := by
  have q1 : c.relative_position.1 ^ 2 ≤ 1 / 4 := by
    nlinarith [sq_abs c.relative_position.1, abs_nonneg c.relative_position.1]
  have q2 : c.relative_position.2 ^ 2 ≤ 1 / 4 := by
    nlinarith [sq_abs c.relative_position.2, abs_nonneg c.relative_position.2]
  have e1 : (c.relative_position.1 * f.1) ^ 2 +
      (c.relative_position.2 * f.2) ^ 2 ≤ 1 / 4 * (f.1 ^ 2 + f.2 ^ 2) := by
    nlinarith [sq_nonneg f.1, sq_nonneg f.2]
  have hq : Real.sqrt (1 / 4) = 1 / 2 := by
    rw [show (1 : ℝ) / 4 = (1 / 2) ^ 2 by norm_num,
      Real.sqrt_sq (by norm_num)]
  unfold vlength relative_scaled
  calc Real.sqrt ((c.relative_position.1 * f.1) ^ 2 +
        (c.relative_position.2 * f.2) ^ 2)
      ≤ Real.sqrt (1 / 4 * (f.1 ^ 2 + f.2 ^ 2)) := Real.sqrt_le_sqrt e1
    _ = 1 / 2 * Real.sqrt (f.1 ^ 2 + f.2 ^ 2) := by
        rw [Real.sqrt_mul (by norm_num), hq]

/-- A moving update step turns the delta into (1 - mp) times itself,
with mp the motion percentage of Corner::update. -/
theorem corner_update_delta (c : Corner) (f dest : ℝ × ℝ)
    (hd : vlength (corner_delta c f dest) > 0) :
    corner_delta ((c.update f dest).1) f dest =
      ((1 - (vdot (corner_delta c f dest) (relative_scaled c f) /
          vlength (corner_delta c f dest) / vlength f *
          MOTION_PERCENTAGE_SPREAD + AVERAGE_MOTION_PERCENTAGE)) *
        (corner_delta c f dest).1,
       (1 - (vdot (corner_delta c f dest) (relative_scaled c f) /
          vlength (corner_delta c f dest) / vlength f *
          MOTION_PERCENTAGE_SPREAD + AVERAGE_MOTION_PERCENTAGE)) *
        (corner_delta c f dest).2) := by
  simp only [Corner.update]
  rw [if_pos hd]
  simp only [corner_delta, relative_scaled]
  rw [Prod.mk.injEq]
  constructor <;> ring

/-- An update step never moves the shape-relative offset. -/
theorem corner_update_relative (c : Corner) (f dest : ℝ × ℝ) :
    ((c.update f dest).1).relative_position = c.relative_position := by
  simp only [Corner.update]
  split <;> rfl

/-- The motion percentage sits within one half of one, so each moving
step contracts the delta by at least the factor 11/20; a resting step
keeps it at zero. -/
theorem corner_update_contracts (c : Corner) (f dest : ℝ × ℝ)
    (h1 : |c.relative_position.1| ≤ 1 / 2)
    (h2 : |c.relative_position.2| ≤ 1 / 2)
    (hf : 0 < vlength f) :
    vlength (corner_delta ((c.update f dest).1) f dest) ≤
      11 / 20 * vlength (corner_delta c f dest) := by
  by_cases hd : vlength (corner_delta c f dest) > 0
  · rw [corner_update_delta c f dest hd, vlength_scale]
    have hms : |vdot (corner_delta c f dest) (relative_scaled c f) /
        vlength (corner_delta c f dest) / vlength f| ≤ 1 / 2 := by
      rw [div_div, abs_div,
        abs_of_pos (mul_pos hd hf), div_le_iff (mul_pos hd hf)]
      calc |vdot (corner_delta c f dest) (relative_scaled c f)|
          ≤ vlength (corner_delta c f dest) * vlength (relative_scaled c f) :=
            vdot_abs_le _ _
        _ ≤ vlength (corner_delta c f dest) * (1 / 2 * vlength f) :=
            mul_le_mul_of_nonneg_left (relative_scaled_le c f h1 h2)
              (vlength_nonneg _)
        _ = 1 / 2 * (vlength (corner_delta c f dest) * vlength f) := by ring
    have hmp : |1 - (vdot (corner_delta c f dest) (relative_scaled c f) /
        vlength (corner_delta c f dest) / vlength f *
        MOTION_PERCENTAGE_SPREAD + AVERAGE_MOTION_PERCENTAGE)| ≤ 11 / 20 := by
      obtain ⟨hlo, hhi⟩ := abs_le.mp hms
      rw [abs_le]
      unfold MOTION_PERCENTAGE_SPREAD AVERAGE_MOTION_PERCENTAGE
      norm_num
      constructor <;> nlinarith
    exact mul_le_mul_of_nonneg_right hmp (vlength_nonneg _)
  · have h0 : vlength (corner_delta c f dest) = 0 :=
      le_antisymm (not_lt.mp hd) (vlength_nonneg _)
    have hupd : (c.update f dest).1 = c := by
      simp only [Corner.update]
      rw [if_neg hd]
    rw [hupd, h0]
    norm_num

/-- The iterated corner keeps its shape-relative offset. -/
theorem corner_iter_relative (c : Corner) (f dest : ℝ × ℝ) :
    ∀ k, (corner_iter c f dest k).relative_position = c.relative_position := by
  intro k
  induction k with
  | zero => rfl
  | succ k ih => rw [corner_iter, corner_update_relative, ih]

/-- Geometric decay of the remaining delta along the iteration. -/
theorem corner_iter_delta_le (c : Corner) (f dest : ℝ × ℝ)
    (h1 : |c.relative_position.1| ≤ 1 / 2)
    (h2 : |c.relative_position.2| ≤ 1 / 2)
    (hf : 0 < vlength f) :
    ∀ k, vlength (corner_delta (corner_iter c f dest k) f dest) ≤
      (11 / 20) ^ k * vlength (corner_delta c f dest) := by
  intro k
  induction k with
  | zero => simp [corner_iter]
  | succ k ih =>
      have hrel := corner_iter_relative c f dest k
      have hstep := corner_update_contracts (corner_iter c f dest k) f dest
        (by rw [hrel]; exact h1) (by rw [hrel]; exact h2) hf
      calc vlength (corner_delta (corner_iter c f dest (k + 1)) f dest)
          ≤ 11 / 20 * vlength (corner_delta (corner_iter c f dest k) f dest) :=
            hstep
        _ ≤ 11 / 20 * ((11 / 20) ^ k * vlength (corner_delta c f dest)) := by
            nlinarith
        _ = (11 / 20) ^ (k + 1) * vlength (corner_delta c f dest) := by ring

/-- Claim C8: for a corner whose offset components stay within one
half (as set_cursor_shape produces for coverage percentages up to
one) and nonzero font dimensions, repeated Corner::update with a
fixed destination converges: from some call count on the remaining
delta length is at most 0.001 and update returns false. -/
theorem c8_corner_update_converges (c : Corner) (f dest : ℝ × ℝ)
    (h1 : |c.relative_position.1| ≤ 1 / 2)
    (h2 : |c.relative_position.2| ≤ 1 / 2)
    (hf : 0 < vlength f) :
    ∃ N, ∀ k, N ≤ k →
      vlength (corner_delta (corner_iter c f dest k) f dest) ≤ 0.001 ∧
      ((corner_iter c f dest k).update f dest).2 = false := by
  obtain ⟨N, hN⟩ := exists_pow_lt_of_lt_one
    (show (0 : ℝ) < 0.001 / (vlength (corner_delta c f dest) + 1) by
      have := vlength_nonneg (corner_delta c f dest)
      positivity)
    (show (11 : ℝ) / 20 < 1 by norm_num)
  refine ⟨N, fun k hk => ?_⟩
  have hmul : (11 / 20 : ℝ) ^ N * (vlength (corner_delta c f dest) + 1) <
      0.001 := by
    have hpos : (0 : ℝ) < vlength (corner_delta c f dest) + 1 := by
      have := vlength_nonneg (corner_delta c f dest)
      linarith
    exact (lt_div_iff hpos).mp hN
  have hdk : vlength (corner_delta (corner_iter c f dest k) f dest) ≤ 0.001 := by
    have ha := corner_iter_delta_le c f dest h1 h2 hf k
    have hb : ((11 : ℝ) / 20) ^ k ≤ ((11 : ℝ) / 20) ^ N :=
      pow_le_pow_of_le_one (by norm_num) (by norm_num) hk
    have hD := vlength_nonneg (corner_delta c f dest)
    have hpn : (0 : ℝ) ≤ ((11 : ℝ) / 20) ^ N :=
      pow_nonneg (by norm_num) N
    nlinarith [mul_le_mul_of_nonneg_right hb hD]
  refine ⟨hdk, ?_⟩
  simp only [Corner.update]
  exact decide_eq_false (not_lt.mpr hdk)

/-- Witness for C8: a corner with offset (1/2, 1/2) moving to the
destination (10, 20) with font dimensions (3, 4). -/
theorem c8_corner_update_converges_witness :
    (|(Corner.mk (0, 0) (1 / 2, 1 / 2)).relative_position.1| ≤ 1 / 2) ∧
    (|(Corner.mk (0, 0) (1 / 2, 1 / 2)).relative_position.2| ≤ 1 / 2) ∧
    (0 < vlength (3, 4)) ∧
    ∃ N, ∀ k, N ≤ k →
      vlength (corner_delta
        (corner_iter (Corner.mk (0, 0) (1 / 2, 1 / 2)) (3, 4) (10, 20) k)
        (3, 4) (10, 20)) ≤ 0.001 ∧
      ((corner_iter (Corner.mk (0, 0) (1 / 2, 1 / 2)) (3, 4) (10, 20) k).update
        (3, 4) (10, 20)).2 = false :=
  ⟨by rw [abs_le]; constructor <;> norm_num,
    by rw [abs_le]; constructor <;> norm_num,
    by unfold vlength; exact Real.sqrt_pos.mpr (by norm_num),
    c8_corner_update_converges (Corner.mk (0, 0) (1 / 2, 1 / 2)) (3, 4)
      (10, 20) (by rw [abs_le]; constructor <;> norm_num)
      (by rw [abs_le]; constructor <;> norm_num)
      (by unfold vlength; exact Real.sqrt_pos.mpr (by norm_num))⟩
